import Mathlib

/-!
Verification development for the corpus annotator in
`src/topic_labeling/preprocessing/nlp_processor.py`.

The Python module is a thin adapter over an external NLP pipeline (spaCy)
and a dataframe library (pandas).  We embed it shallowly:

* the external pipeline is a parameter `nlp : String → SpacyDoc`, where a
  `SpacyDoc` carries the ordered token annotations and the noun-phrase
  chunks the pipeline emits for a text;
* dataframe cells are a sum type `Value` (ints and strings); a dataframe
  is a column list, an index column and a row list;
* the token-record extraction (`process_docs`), the table assembly
  (`df_from_docs`), the loader (`read`), the writer (`store`) and the
  orchestrator (`read_process_store`) are translated function by function;
* pickle serialization is modelled as the identity on dataframes (the
  external library's round-trip guarantee); file-system side effects are
  modelled by returning the path/content pair that would be written.

Column-name constants come from `topic_labeling.utils.constants`, which is
not part of the sources; they are modelled from the spec (see below).
-/

namespace NLProcessor

/-- A pandas cell: either an integer or a string. -/
inductive Value where
  | n (v : Int)
  | s (v : String)
deriving DecidableEq, Repr, Inhabited

/-- A pandas dataframe: column names, the index column, and the rows
(one list of cells per row, in column order). -/
structure DF where
  cols : List String
  index : List Value
  rows : List (List Value)
deriving DecidableEq, Repr, Inhabited

/-- Modelled from the spec: the column-name constants imported from
`topic_labeling.utils.constants` (that module is not among the sources).
Their exact string values are unknown; they are chosen distinct, which the
code requires since they name distinct dataframe columns.  `TEXT` is the
same constant in the document table (body text) and in the token table
(surface text), as in the imports. -/
def HASH : String := "hash"

/-- Modelled from the spec: column-name constant (see `HASH`). -/
def TOK_IDX : String := "tok_idx"

/-- Modelled from the spec: column-name constant (see `HASH`). -/
def SENT_IDX : String := "sent_idx"

/-- Modelled from the spec: column-name constant (see `HASH`). -/
def TEXT : String := "text"

/-- Modelled from the spec: column-name constant (see `HASH`). -/
def TOKEN : String := "token"

/-- Modelled from the spec: column-name constant (see `HASH`). -/
def POS : String := "pos"

/-- Modelled from the spec: column-name constant (see `HASH`). -/
def ENT_IOB : String := "ent_iob"

/-- Modelled from the spec: column-name constant (see `HASH`). -/
def ENT_IDX : String := "ent_idx"

/-- Modelled from the spec: column-name constant (see `HASH`). -/
def ENT_TYPE : String := "ent_type"

/-- Modelled from the spec: column-name constant (see `HASH`). -/
def NOUN_PHRASE : String := "noun_phrase"

/-- Modelled from the spec: column-name constant (see `HASH`). -/
def TITLE : String := "title"

/-- Modelled from the spec: column-name constant (see `HASH`). -/
def DESCRIPTION : String := "description"

/-- Modelled from the spec: the part-of-speech value for the punctuation
category (`PUNCT` in `topic_labeling.utils.constants`). -/
def PUNCT : String := "PUNCT"

/-- Modelled from the spec: the fixed output directory for token tables
(`NLP_DIR` in `topic_labeling.utils.constants`); its concrete path does
not matter for the claims. -/
def NLP_DIR : String := "nlp_dir"

/-- `FIELDS` from the source: the final column set and order of the
assembled token table. -/
def FIELDS : List String :=
  [HASH, TOK_IDX, SENT_IDX, TEXT, TOKEN, POS, ENT_IOB, ENT_IDX, ENT_TYPE, NOUN_PHRASE]

/-- One token annotation as produced by the external pipeline for a
processed text.  Field names follow the spaCy attributes the source
reads: `text`, `lemma_`, `pos_`, `i`, `is_sent_start`, `ent_iob_`,
`ent_type_`.  `iwnlp_lemmas` models `token._.iwnlp_lemmas`, the optional
dictionary lemma; per the spec the dictionary lookup is a black box
returning zero-or-one lemma, so it is an `Option String`
(Modelled from the spec: `nlp_lemmatizer_plus` is not among the sources). -/
structure SpacyToken where
  text : String
  lemma_ : String
  iwnlp_lemmas : Option String
  pos_ : String
  i : Nat
  is_sent_start : Bool
  ent_iob_ : String
  ent_type_ : String
deriving DecidableEq, Repr, Inhabited

/-- The result of running the external pipeline on a text: the ordered
token sequence and the noun-phrase chunks (`doc.noun_chunks`), each chunk
given by the `token.i` positions of its tokens, in emission order. -/
structure SpacyDoc where
  tokens : List SpacyToken
  noun_chunks : List (List Nat)
deriving DecidableEq, Repr, Inhabited

/-- One document record of the input table, as unpacked from
`text_df.itertuples()`: `key, title, descr, text = kv`. -/
structure DocRecord where
  key : Value
  title : String
  descr : String
  text : String
deriving DecidableEq, Repr, Inhabited

/-- One entry of the `attr` list built in `process_docs` (lines 116-121):
the per-token record accumulated into `docs`. -/
structure TokenRec where
  hash : Value
  text : String
  lemma_ : String
  iwnlp : Option String
  pos : String
  tok_idx : Nat
  sent_start : Nat
  ent_iob : String
  ent_type : String
  noun_phrase : Nat
deriving DecidableEq, Repr, Inhabited

/-- One row of the final assembled table, fields in `FIELDS` order. -/
structure Row where
  hash : Value
  tok_idx : Nat
  sent_idx : Nat
  text : String
  token : String
  pos : String
  ent_iob : String
  ent_idx : Nat
  ent_type : String
  noun_phrase : Nat
deriving DecidableEq, Repr, Inhabited

/-- `'\n'.join(filter(None, [title, descr, text]))` (line 106): join the
non-empty text fields with newlines (Python `filter(None, ·)` drops falsy
values, i.e. empty strings). -/
def docText (r : DocRecord) : String :=
  String.intercalate "\n" ([r.title, r.descr, r.text].filter (fun s => s != ""))

/-- The inner loop of the noun-chunk walk (lines 112-113):
`for token in chunk: noun_phrases[token.i] = chunk_idx`. -/
def npAssign (m : Nat → Option Nat) (ci : Nat) (chunk : List Nat) : Nat → Option Nat :=
  chunk.foldl (fun m ti => Function.update m ti (some ci)) m

/-- One step of the noun-chunk walk (lines 110-113): `chunk_idx += 1`,
then every token position of the chunk is mapped to the new counter. -/
def npStep (acc : (Nat → Option Nat) × Nat) (chunk : List Nat) : (Nat → Option Nat) × Nat :=
  (npAssign acc.1 (acc.2 + 1) chunk, acc.2 + 1)

/-- The noun-chunk walk of one document (lines 109-113): starting from an
empty `noun_phrases` dict and the running batch-wide `chunk_idx`, fold
over the emitted chunks.  Returns the per-document position-to-id map and
the advanced counter. -/
def nounPhraseMap (chunks : List (List Nat)) (chunk_idx : Nat) : (Nat → Option Nat) × Nat :=
  chunks.foldl npStep (fun _ => none, chunk_idx)

/-- The `attr` list comprehension (lines 116-121): one `TokenRec` per
token in emission order.  `sent_start` is
`1 if (token.is_sent_start or token.i == 0) else 0`; `noun_phrase` is
`noun_phrases.get(token.i, 0)`. -/
def tokenAttrs (key : Value) (np : Nat → Option Nat) (doc : SpacyDoc) : List TokenRec :=
  doc.tokens.map (fun t =>
    { hash := key, text := t.text, lemma_ := t.lemma_, iwnlp := t.iwnlp_lemmas,
      pos := t.pos_, tok_idx := t.i,
      sent_start := if t.is_sent_start || t.i == 0 then 1 else 0,
      ent_iob := t.ent_iob_, ent_type := t.ent_type_,
      noun_phrase := (np t.i).getD 0 })

/-- The body of the per-document loop of `process_docs` (lines 104-123):
run the pipeline on the joined text, walk the noun chunks, extract the
token records and append them to the accumulated list, threading the
batch-wide chunk counter. -/
def processDocRec (nlp : String → SpacyDoc) (acc : List TokenRec × Nat) (r : DocRecord) :
    List TokenRec × Nat :=
  let doc := nlp (docText r)
  let np := nounPhraseMap doc.noun_chunks acc.2
  (acc.1 ++ tokenAttrs r.key np.1 doc, np.2)

/-- The accumulation loop of `process_docs` (lines 93-123): `chunk_idx`
starts at 0 and `docs` empty; each document appends its token records. -/
def collectDocs (nlp : String → SpacyDoc) (rows : List DocRecord) : List TokenRec :=
  (rows.foldl (processDocRec nlp) ([], 0)).1

/-- `list('[]<>/–%')` (line 166): the fixed punctuation symbols, as
one-character strings ('–' is the en dash U+2013). -/
def punct_strings : List String := "[]<>/–%".toList.map Char.toString

/-- Token resolution (lines 161-164): the `TOKEN` column is the IWNLP
lemma where it is non-null, else the spacy lemma. -/
def resolveToken (r : TokenRec) : String :=
  match r.iwnlp with
  | some l => l
  | none => r.lemma_

/-- The punctuation fix (lines 165-167): rows whose resolved token is in
`punct_strings` get `POS` overwritten with `PUNCT`. -/
def fixPos (token pos : String) : String :=
  if token ∈ punct_strings then PUNCT else pos

/-- Builds one final row from a token record and the inclusive running
sums at its position: `s` is the cumulative sum of `SENT_START`
(line 169) and `e` the cumulative sum of `ENT_IOB == 'B'` (lines 171-172),
zeroed out when `ENT_IOB == 'O'` (line 173).  The categorical casts
(lines 175-177) do not change cell values and the projection `df[FIELDS]`
(line 179) is the field order of `Row`. -/
def mkRow (r : TokenRec) (s e : Nat) : Row :=
  { hash := r.hash, tok_idx := r.tok_idx, sent_idx := s, text := r.text,
    token := resolveToken r,
    pos := fixPos (resolveToken r) r.pos,
    ent_iob := r.ent_iob,
    ent_idx := if r.ent_iob = "O" then 0 else e,
    ent_type := r.ent_type,
    noun_phrase := r.noun_phrase }

/-- Sequential rendering of the vectorized column computations of
`df_from_docs`: walk the records in row order carrying the two inclusive
cumulative sums. -/
def dfRowsGo : List TokenRec → Nat → Nat → List Row
  | [], _, _ => []
  | r :: rest, sAcc, eAcc =>
    mkRow r (sAcc + r.sent_start) (eAcc + (if r.ent_iob = "B" then 1 else 0)) ::
      dfRowsGo rest (sAcc + r.sent_start) (eAcc + (if r.ent_iob = "B" then 1 else 0))

/-- `df_from_docs` (lines 147-179): assemble the final token table from
the accumulated records.  Cumulative sums start at 0, i.e. they run over
the whole batch in row order. -/
def df_from_docs (docs : List TokenRec) : List Row :=
  dfRowsGo docs 0 0

/-- `process_docs` (lines 87-125): accumulate the token records of all
documents, then assemble the table. -/
def process_docs (nlp : String → SpacyDoc) (rows : List DocRecord) : List Row :=
  df_from_docs (collectDocs nlp rows)

/-- Whether `needle` is a prefix of the character list `hay`. -/
def charsStartWith : List Char → List Char → Bool
  | _, [] => true
  | [], _ :: _ => false
  | a :: hay, b :: needle => a == b && charsStartWith hay needle

/-- Whether `needle` occurs as a contiguous sublist of `hay`. -/
def charsContain : List Char → List Char → Bool
  | [], needle => needle.isEmpty
  | a :: hay, needle => charsStartWith (a :: hay) needle || charsContain hay needle

/-- Python's `needle in hay` on strings (substring containment), used by
the `'dewiki' in f` check (line 140). -/
def hasSubstring (hay needle : String) : Bool :=
  charsContain hay.toList needle.toList

/-- Resolves one bound of a Python slice `l[start:stop]` to an absolute
position: negative bounds count from the end (clamped at 0), non-negative
bounds are clamped at the length. -/
def pySliceBound (n : Nat) (b : Int) : Nat :=
  if b < 0 then ((n : Int) + b).toNat else min b.toNat n

/-- Python slicing `l[start:stop]` with step 1 (the semantics of
`.iloc[start:stop]`): the elements at positions `[lo, hi)` after bound
resolution. -/
def pySlice {α : Type} (l : List α) (start : Int) (stop? : Option Int) : List α :=
  let lo := pySliceBound l.length start
  let hi := match stop? with
    | none => l.length
    | some s => pySliceBound l.length s
  (l.take hi).drop lo

/-- `df.iloc[start:stop]`: slice the index and the rows together. -/
def dfIloc (df : DF) (start : Int) (stop? : Option Int) : DF :=
  { cols := df.cols, index := pySlice df.index start stop?, rows := pySlice df.rows start stop? }

/-- `df[[c, ...]]`: project a dataframe to the named columns, in the given
order, keeping the index.  Fails (pandas `KeyError`) when a requested
column is absent. -/
def dfSelect (df : DF) (cols : List String) : Except String DF :=
  match cols.mapM (fun c => df.cols.findIdx? (fun c2 => c2 == c)) with
  | none => Except.error "KeyError: requested columns not in dataframe"
  | some ps =>
    Except.ok { cols := cols, index := df.index,
                rows := df.rows.map (fun r => ps.map (fun p => r.getD p (Value.s ""))) }

/-- `df[df.index.isin(good_ids.index)]`: keep the rows whose index value
is among `goodIds`. -/
def dfFilterIndex (df : DF) (goodIds : List Value) : DF :=
  let kept := (df.index.zip df.rows).filter (fun p => goodIds.contains p.1)
  { cols := df.cols, index := kept.map (fun p => p.1), rows := kept.map (fun p => p.2) }

/-- `read` (lines 135-145).  `source` stands for the dataframe pickled at
path `f` (`pd.read_pickle(f)`) and `goodIds` for the index of the
separately maintained allow-list `dewiki_good_ids.pickle`; both are
passed as parameters since file contents are external inputs.  The final
`.copy()` is the identity on the value. -/
def read (f : String) (source : DF) (goodIds : List Value) (start : Int)
    (stop? : Option Int) : Except String DF := do
  let df ← dfSelect source [TITLE, DESCRIPTION, TEXT]
  let df := dfIloc df start stop?
  let df := if hasSubstring f "dewiki" then dfFilterIndex df goodIds else df
  Except.ok df

/-- `store` (lines 127-133): returns the pair of the output path
`join(NLP_DIR, corpus + suffix + '.pickle')` and the pickled dataframe
(pickling is modelled as the identity; `makedirs` is a file-system side
effect with no value content). -/
def store (corpus : String) (df : DF) (suffix : String) : String × DF :=
  (NLP_DIR ++ "/" ++ corpus ++ suffix ++ ".pickle", df)

/-- Python truthiness of an int: `0` is falsy. -/
def pyTruthyInt (n : Int) : Bool := n != 0

/-- Python truthiness of an optional int: `None` and `0` are falsy. -/
def pyTruthyOptInt (o : Option Int) : Bool :=
  match o with
  | none => false
  | some n => n != 0

/-- Python `stop - 1` where `stop` may be `None`: on `None` this raises
`TypeError` (line 66 evaluates `stop-1` unconditionally in the truthy
branch). -/
def intSub1 (o : Option Int) : Except String Int :=
  match o with
  | none => Except.error "TypeError: unsupported operand type(s) for -: 'NoneType' and 'int'"
  | some n => Except.ok (n - 1)

/-- The suffix computation of `read_process_store` (lines 65-68):
`'_{:d}_{:d}_nlp'.format(start, stop-1) if (start or stop) else '_nlp'`. -/
def mkSuffix (start : Int) (stop? : Option Int) : Except String String :=
  if pyTruthyInt start || pyTruthyOptInt stop? then do
    let s ← intSub1 stop?
    Except.ok ("_" ++ toString start ++ "_" ++ toString s ++ "_nlp")
  else
    Except.ok "_nlp"

/-- Converts the final typed token table to a dataframe with the `FIELDS`
columns and the default integer range index that `pd.DataFrame` assigns
(lines 155-160 build the dataframe, line 179 projects it to `FIELDS`). -/
def rowCells (r : Row) : List Value :=
  [r.hash, Value.n r.tok_idx, Value.n r.sent_idx, Value.s r.text, Value.s r.token,
   Value.s r.pos, Value.s r.ent_iob, Value.n r.ent_idx, Value.s r.ent_type,
   Value.n r.noun_phrase]

/-- The assembled token table as a dataframe (see `rowCells`). -/
def tokenTableToDF (rows : List Row) : DF :=
  { cols := FIELDS,
    index := (List.range rows.length).map (fun i => Value.n i),
    rows := rows.map rowCells }

/-- `df.itertuples()` over the loaded document table: pairs of index
value and row cells, unpacked as `key, title, descr, text = kv`
(line 104).  Fails when a row does not consist of exactly three string
cells (Python would raise on unpacking or on joining non-strings). -/
def toDocRecords (df : DF) : Except String (List DocRecord) :=
  (df.index.zip df.rows).mapM (fun kv =>
    match kv.2 with
    | [Value.s t, Value.s d, Value.s b] => Except.ok { key := kv.1, title := t, descr := d, text := b }
    | _ => Except.error "ValueError: cannot unpack row into (title, descr, text)")

/-- `read_process_store` (lines 41-78): load the slice, annotate it, and,
when storing is enabled, compute the suffix and store the table.  The
returned value is `some (path, pickled table)` when a table is written,
`none` when storing is disabled; logging, the preview print, timing, the
gc hints and the vocabulary snapshot (`vocab_to_disk`) are side effects
without value content.  Any Python exception surfaces as `Except.error`. -/
def read_process_store (nlp : String → SpacyDoc) (source : DF) (goodIds : List Value)
    (file_path corpus_name : String) (storeFlag vocab_to_disk : Bool)
    (start : Int) (stop? : Option Int) : Except String (Option (String × DF)) := do
  let df ← read file_path source goodIds start stop?
  let recs ← toDocRecords df
  let tok := process_docs nlp recs
  if storeFlag then do
    let suffix ← mkSuffix start stop?
    Except.ok (some (store corpus_name (tokenTableToDF tok) suffix))
  else
    Except.ok none

/-! ### Helper functions used to state and prove the properties -/

/-- The inclusive running sum of the `SENT_START` column restricted to a
record list (the value of `df[SENT_START].cumsum()` at the last row of
the list). -/
def sentSum (l : List TokenRec) : Nat :=
  (l.map TokenRec.sent_start).sum

/-- The inclusive running count of rows with `ENT_IOB == 'B'` (the value
of `(df[ENT_IOB] == 'B').cumsum()` at the last row of the list). -/
def entBSum (l : List TokenRec) : Nat :=
  (l.map (fun r => if r.ent_iob = "B" then 1 else 0)).sum

/-- The number of noun-phrase chunks the pipeline emits for the first `k`
documents of a batch: the value of the shared `chunk_idx` counter when
document `k` starts processing. -/
def chunksBefore (nlp : String → SpacyDoc) (rows : List DocRecord) (k : Nat) : Nat :=
  ((rows.take k).map (fun r => (nlp (docText r)).noun_chunks.length)).sum

/-- The number of tokens emitted for the first `k` documents of a batch:
the position in the flat accumulated record list where document `k`'s
records start. -/
def tokensBefore (nlp : String → SpacyDoc) (rows : List DocRecord) (k : Nat) : Nat :=
  ((rows.take k).map (fun r => (nlp (docText r)).tokens.length)).sum

/-- The token records contributed by one document when the shared chunk
counter holds `c0` on entry. -/
def docAttrs (nlp : String → SpacyDoc) (r : DocRecord) (c0 : Nat) : List TokenRec :=
  tokenAttrs r.key (nounPhraseMap (nlp (docText r)).noun_chunks c0).1 (nlp (docText r))

/-- Structural form of the `process_docs` accumulation: the record lists
of the documents in order, each built with the chunk counter it sees. -/
def collectFrom (nlp : String → SpacyDoc) : List DocRecord → Nat → List TokenRec
  | [], _ => []
  | r :: rest, c0 =>
    docAttrs nlp r c0 ++ collectFrom nlp rest (c0 + (nlp (docText r)).noun_chunks.length)

/-- Decidable check that the chunks of one document are pairwise
disjoint (no token position occurs in two distinct chunks) — the shape
spaCy's non-overlapping `noun_chunks` always have. -/
def chunksDisjointB (cs : List (List Nat)) : Bool :=
  (List.range cs.length).all fun j1 =>
    (List.range cs.length).all fun j2 =>
      j1 == j2 || (cs.getD j1 []).all fun t => !((cs.getD j2 []).contains t)

/-- Decidable check that every document of a batch has pairwise-disjoint
noun chunks (see `chunksDisjointB`). -/
def batchChunksDisjoint (nlp : String → SpacyDoc) (rows : List DocRecord) : Bool :=
  (List.range rows.length).all fun k =>
    chunksDisjointB (nlp (docText (rows.getD k default))).noun_chunks

/-- Decidable check that a record list has well-formed IOB structure:
every row whose `ENT_IOB` is not Outside is preceded (inclusively) by
some Begin row — the shape valid IOB annotations always have. -/
def iobWF (docs : List TokenRec) : Bool :=
  (List.range docs.length).all fun i =>
    ((docs.getD i default).ent_iob == "O") ||
      (List.range (i + 1)).any fun j => (docs.getD j default).ent_iob == "B"

/-! ### Concrete sample inputs for the witnesses and counterexamples -/

/-- A sample token record carrying a dictionary lemma. -/
def sampleRec0 : TokenRec :=
  { hash := Value.n 1, text := "Häuser", lemma_ := "haus", iwnlp := some "Haus",
    pos := "NOUN", tok_idx := 0, sent_start := 1, ent_iob := "B", ent_type := "LOC",
    noun_phrase := 1 }

/-- A sample token record without a dictionary lemma, inside an entity. -/
def sampleRec1 : TokenRec :=
  { hash := Value.n 1, text := "läuft", lemma_ := "laufen", iwnlp := none,
    pos := "VERB", tok_idx := 1, sent_start := 0, ent_iob := "I", ent_type := "LOC",
    noun_phrase := 0 }

/-- A sample punctuation token record outside any entity. -/
def sampleRec2 : TokenRec :=
  { hash := Value.n 1, text := "[", lemma_ := "[", iwnlp := none,
    pos := "X", tok_idx := 2, sent_start := 0, ent_iob := "O", ent_type := "",
    noun_phrase := 0 }

/-- Three accumulated token records: one with a dictionary lemma, one
without, one punctuation token outside any entity. -/
def sampleRecs : List TokenRec := [sampleRec0, sampleRec1, sampleRec2]

/-- The assembled row for `sampleRecs[0]`. -/
def sampleRow0 : Row :=
  { hash := Value.n 1, tok_idx := 0, sent_idx := 1, text := "Häuser", token := "Haus",
    pos := "NOUN", ent_iob := "B", ent_idx := 1, ent_type := "LOC", noun_phrase := 1 }

/-- The assembled row for `sampleRecs[1]`. -/
def sampleRow1 : Row :=
  { hash := Value.n 1, tok_idx := 1, sent_idx := 1, text := "läuft", token := "laufen",
    pos := "VERB", ent_iob := "I", ent_idx := 1, ent_type := "LOC", noun_phrase := 0 }

/-- The assembled row for `sampleRecs[2]`. -/
def sampleRow2 : Row :=
  { hash := Value.n 1, tok_idx := 2, sent_idx := 1, text := "[", token := "[",
    pos := "PUNCT", ent_iob := "O", ent_idx := 0, ent_type := "", noun_phrase := 0 }

/-- Sample pipeline token 0 (inside the first noun chunk). -/
def sampleTok0 : SpacyToken :=
  { text := "Cat", lemma_ := "cat", iwnlp_lemmas := none, pos_ := "NOUN", i := 0,
    is_sent_start := false, ent_iob_ := "O", ent_type_ := "" }

/-- Sample pipeline token 1 (inside the first noun chunk, entity Begin). -/
def sampleTok1 : SpacyToken :=
  { text := "Dog", lemma_ := "dog", iwnlp_lemmas := some "Dog", pos_ := "NOUN", i := 1,
    is_sent_start := false, ent_iob_ := "B", ent_type_ := "ANIMAL" }

/-- Sample pipeline token 2 (outside any noun chunk). -/
def sampleTok2 : SpacyToken :=
  { text := ".", lemma_ := ".", iwnlp_lemmas := none, pos_ := "PUNCT", i := 2,
    is_sent_start := false, ent_iob_ := "O", ent_type_ := "" }

/-- Sample pipeline token 3 (its own noun chunk, a sentence start). -/
def sampleTok3 : SpacyToken :=
  { text := "Run", lemma_ := "run", iwnlp_lemmas := none, pos_ := "VERB", i := 3,
    is_sent_start := true, ent_iob_ := "O", ent_type_ := "" }

/-- A pipeline output with four tokens and two noun chunks. -/
def sampleSpacyDoc : SpacyDoc :=
  { tokens := [sampleTok0, sampleTok1, sampleTok2, sampleTok3],
    noun_chunks := [[0, 1], [3]] }

/-- A black-box pipeline returning `sampleSpacyDoc` for every text. -/
def sampleNlp : String → SpacyDoc := fun _ => sampleSpacyDoc

/-- A sample input document record. -/
def sampleDocRec : DocRecord :=
  { key := Value.n 7, title := "Cat Dog", descr := "", text := "" }

/-- A one-document input batch. -/
def sampleDocRows : List DocRecord := [sampleDocRec]

/-- A 20-document source table with columns title/description/text. -/
def sample20 : DF :=
  { cols := [TITLE, DESCRIPTION, TEXT],
    index := (List.range 20).map (fun i => Value.n i),
    rows := (List.range 20).map (fun i => [Value.s ("t" ++ toString i), Value.s "", Value.s ""]) }

/-- An allow-list that omits document 7 of `sample20`. -/
def goodIdsNo7 : List Value :=
  ((List.range 20).filter (fun i => i != 7)).map (fun i => Value.n i)

/-- The slice `sample20.iloc[5:10]` after column projection. -/
def sample20Slice : DF :=
  { cols := [TITLE, DESCRIPTION, TEXT],
    index := [Value.n 5, Value.n 6, Value.n 7, Value.n 8, Value.n 9],
    rows := [[Value.s "t5", Value.s "", Value.s ""], [Value.s "t6", Value.s "", Value.s ""],
             [Value.s "t7", Value.s "", Value.s ""], [Value.s "t8", Value.s "", Value.s ""],
             [Value.s "t9", Value.s "", Value.s ""]] }

/-- The document records of `sample20Slice`. -/
def sample20SliceRecs : List DocRecord :=
  [ { key := Value.n 5, title := "t5", descr := "", text := "" },
    { key := Value.n 6, title := "t6", descr := "", text := "" },
    { key := Value.n 7, title := "t7", descr := "", text := "" },
    { key := Value.n 8, title := "t8", descr := "", text := "" },
    { key := Value.n 9, title := "t9", descr := "", text := "" } ]

/-- A two-document table with exactly the document columns, used for the
round-trip witness. -/
def sampleDocDF : DF :=
  { cols := [TITLE, DESCRIPTION, TEXT],
    index := [Value.n 0, Value.n 1],
    rows := [[Value.s "Cat Dog", Value.s "", Value.s ""],
             [Value.s "", Value.s "Run.", Value.s ""]] }

/-! ### Characterization of the assembled table -/

/-- Row `i` of the sequential assembly from accumulators `s`, `e` is the
`i`-th record dressed with the inclusive cumulative sums shifted by the
accumulators. -/
theorem dfRowsGo_getElem? (docs : List TokenRec) (s e i : Nat) :
    (dfRowsGo docs s e)[i]? =
      docs[i]?.map (fun r =>
        mkRow r (s + sentSum (docs.take (i + 1))) (e + entBSum (docs.take (i + 1)))) := by
  induction docs generalizing s e i with
  | nil => simp [dfRowsGo]
  | cons r rest ih =>
    cases i with
    | zero => simp [dfRowsGo, sentSum, entBSum]
    | succ i =>
      simp only [dfRowsGo, List.getElem?_cons_succ, ih, List.take_succ_cons]
      cases h : rest[i]? with
      | none => simp
      | some r2 => simp [sentSum, entBSum, Nat.add_assoc]

/-- Row `i` of `df_from_docs` is the `i`-th record dressed with the
inclusive cumulative sums over the first `i + 1` records. -/
theorem df_from_docs_getElem? (docs : List TokenRec) (i : Nat) :
    (df_from_docs docs)[i]? =
      docs[i]?.map (fun r =>
        mkRow r (sentSum (docs.take (i + 1))) (entBSum (docs.take (i + 1)))) := by
  simpa using dfRowsGo_getElem? docs 0 0 i

/-- Extending an inclusive prefix by the record at position `n` adds its
`sent_start` value to the sentence cumulative sum. -/
theorem sentSum_take_succ (docs : List TokenRec) (n : Nat) (r : TokenRec)
    (h : docs[n]? = some r) :
    sentSum (docs.take (n + 1)) = sentSum (docs.take n) + r.sent_start := by
  rw [List.take_succ, h]
  simp [sentSum]

/-- Extending an inclusive prefix by the record at position `n` adds its
Begin indicator to the entity cumulative sum. -/
theorem entBSum_take_succ (docs : List TokenRec) (n : Nat) (r : TokenRec)
    (h : docs[n]? = some r) :
    entBSum (docs.take (n + 1)) = entBSum (docs.take n) + (if r.ent_iob = "B" then 1 else 0) := by
  rw [List.take_succ, h]
  simp [entBSum]

/-- Sums of a mapped prefix grow with the prefix length. -/
theorem sumMapTake_mono {α : Type} (f : α → Nat) (l : List α) {a b : Nat} (hab : a ≤ b) :
    ((l.take a).map f).sum ≤ ((l.take b).map f).sum := by
  have h1 : l.take a = (l.take b).take a := by
    rw [List.take_take, Nat.min_eq_left hab]
  obtain ⟨t, ht⟩ := (List.take_prefix a (l.take b)).map f
  rw [h1, ← ht, List.sum_append]
  exact Nat.le_add_right _ _

/-- C1: for every assembled token-table row, the resolved token equals
the dictionary (IWNLP) lemma whenever that lemma is present and non-null,
and otherwise equals the pipeline-derived lemma. -/
theorem df_from_docs_token_resolution (docs : List TokenRec) (i : Nat) (r : TokenRec)
    (trow : Row) (hr : docs[i]? = some r) (ht : (df_from_docs docs)[i]? = some trow) :
    (∀ l, r.iwnlp = some l → trow.token = l) ∧ (r.iwnlp = none → trow.token = r.lemma_) := by
  rw [df_from_docs_getElem?, hr] at ht
  simp only [Option.map_some'] at ht
  injection ht with ht
  subst ht
  constructor
  · intro l hl
    simp [mkRow, resolveToken, hl]
  · intro hl
    simp [mkRow, resolveToken, hl]

/-- Witness for C1 at concrete inputs: the record with dictionary lemma
`some "Haus"` resolves to `"Haus"`; the record with no dictionary lemma
resolves to its pipeline lemma `"laufen"`. -/
theorem df_from_docs_token_resolution_witness :
    sampleRecs[0]? = some sampleRec0 ∧ (df_from_docs sampleRecs)[0]? = some sampleRow0 ∧
      sampleRow0.token = "Haus" ∧
      sampleRecs[1]? = some sampleRec1 ∧ (df_from_docs sampleRecs)[1]? = some sampleRow1 ∧
      sampleRow1.token = sampleRec1.lemma_ := by
  refine ⟨by decide, by decide, ?_, by decide, by decide, ?_⟩
  · exact (df_from_docs_token_resolution sampleRecs 0 sampleRec0 sampleRow0
      (by decide) (by decide)).1 "Haus" (by decide)
  · exact (df_from_docs_token_resolution sampleRecs 1 sampleRec1 sampleRow1
      (by decide) (by decide)).2 (by decide)

/-- C2: for every assembled token table, the sentence-index column equals
the running cumulative sum, in row order over the whole batch, of the
sentence-start flag column; hence it is monotonically non-decreasing
across the table, increments by one at each row whose flag is 1 (true)
and is unchanged at each row whose flag is 0. -/
theorem df_from_docs_sent_idx_cumsum (docs : List TokenRec) :
    (∀ (i : Nat) (trow : Row), (df_from_docs docs)[i]? = some trow →
        trow.sent_idx = sentSum (docs.take (i + 1))) ∧
    (∀ (i j : Nat) (ti tj : Row), i ≤ j → (df_from_docs docs)[i]? = some ti →
        (df_from_docs docs)[j]? = some tj → ti.sent_idx ≤ tj.sent_idx) ∧
    (∀ (i : Nat) (r : TokenRec) (ti tsucc : Row), docs[i + 1]? = some r →
        (df_from_docs docs)[i]? = some ti →
        (df_from_docs docs)[i + 1]? = some tsucc →
        ((r.sent_start = 1 → tsucc.sent_idx = ti.sent_idx + 1) ∧
         (r.sent_start = 0 → tsucc.sent_idx = ti.sent_idx))) := by
  have key : ∀ (i : Nat) (trow : Row), (df_from_docs docs)[i]? = some trow →
      trow.sent_idx = sentSum (docs.take (i + 1)) := by
    intro i trow ht
    rw [df_from_docs_getElem?] at ht
    cases hr : docs[i]? with
    | none => rw [hr] at ht; simp at ht
    | some r =>
      rw [hr] at ht
      simp only [Option.map_some'] at ht
      injection ht with ht
      subst ht
      rfl
  refine ⟨key, ?_, ?_⟩
  · intro i j ti tj hij hi hj
    rw [key i ti hi, key j tj hj]
    exact sumMapTake_mono TokenRec.sent_start docs (Nat.succ_le_succ hij)
  · intro i r ti tsucc hr hi hsucc
    have h := key (i + 1) tsucc hsucc
    rw [sentSum_take_succ docs (i + 1) r hr, ← key i ti hi] at h
    constructor
    · intro h1; rw [h, h1]
    · intro h0; rw [h, h0, Nat.add_zero]

/-- Witness for C2 at concrete inputs: the third row's sentence index is
the cumulative flag sum of the first three records; the second row's
index does not exceed the third's; and since the third record's flag is
0, the index is unchanged there. -/
theorem df_from_docs_sent_idx_cumsum_witness :
    (df_from_docs sampleRecs)[1]? = some sampleRow1 ∧
      (df_from_docs sampleRecs)[2]? = some sampleRow2 ∧
      sampleRecs[2]? = some sampleRec2 ∧
      sampleRow2.sent_idx = sentSum (sampleRecs.take 3) ∧
      sampleRow1.sent_idx ≤ sampleRow2.sent_idx ∧
      sampleRow2.sent_idx = sampleRow1.sent_idx := by
  refine ⟨by decide, by decide, by decide, ?_, ?_, ?_⟩
  · exact (df_from_docs_sent_idx_cumsum sampleRecs).1 2 sampleRow2 (by decide)
  · exact (df_from_docs_sent_idx_cumsum sampleRecs).2.1 1 2 sampleRow1 sampleRow2
      (by decide) (by decide) (by decide)
  · exact ((df_from_docs_sent_idx_cumsum sampleRecs).2.2 1 sampleRec2 sampleRow1 sampleRow2
      (by decide) (by decide) (by decide)).2 (by decide)

/-- C3: for every assembled token table with well-formed IOB input
(every non-Outside row is preceded inclusively by a Begin row, as valid
IOB annotation guarantees), the entity-index column is 0 exactly on rows
whose entity IOB tag is Outside; on all other rows it equals the
batch-wide running count of Begin tags seen so far; and that running
count strictly increases (by one) at every Begin row and stays constant
otherwise. -/
theorem df_from_docs_ent_idx_spec (docs : List TokenRec) (hwf : iobWF docs = true) :
    (∀ (i : Nat) (r : TokenRec) (trow : Row), docs[i]? = some r →
        (df_from_docs docs)[i]? = some trow →
        ((r.ent_iob = "O" → trow.ent_idx = 0) ∧
         (r.ent_iob ≠ "O" → trow.ent_idx = entBSum (docs.take (i + 1))) ∧
         (trow.ent_idx = 0 ↔ r.ent_iob = "O"))) ∧
    (∀ (i : Nat) (r : TokenRec), docs[i + 1]? = some r →
        ((r.ent_iob = "B" →
            entBSum (docs.take (i + 2)) = entBSum (docs.take (i + 1)) + 1) ∧
         (r.ent_iob ≠ "B" →
            entBSum (docs.take (i + 2)) = entBSum (docs.take (i + 1))))) := by
  constructor
  · intro i r trow hr ht
    rw [df_from_docs_getElem?, hr] at ht
    simp only [Option.map_some'] at ht
    injection ht with ht
    subst ht
    have hO : r.ent_iob = "O" → (mkRow r (sentSum (docs.take (i + 1)))
        (entBSum (docs.take (i + 1)))).ent_idx = 0 := by
      intro h
      simp [mkRow, h]
    have hNotO : r.ent_iob ≠ "O" → (mkRow r (sentSum (docs.take (i + 1)))
        (entBSum (docs.take (i + 1)))).ent_idx = entBSum (docs.take (i + 1)) := by
      intro h
      simp [mkRow, h]
    refine ⟨hO, hNotO, ?_, hO⟩
    -- the `ent_idx = 0 → ENT_IOB = 'O'` direction needs well-formed IOB:
    -- a non-Outside row has a Begin row at or before it, so the running
    -- Begin count at that row is at least 1.
    intro h0
    by_contra hne
    have hlen : i < docs.length := by
      rcases List.getElem?_eq_some.mp hr with ⟨h, _⟩
      exact h
    have hall := List.all_eq_true.mp hwf i (List.mem_range.mpr hlen)
    have hgetD : docs.getD i default = r := by
      rw [List.getD_eq_getElem?_getD, hr]
      rfl
    rw [hgetD] at hall
    have hbeq : (r.ent_iob == "O") = false := by
      simp [hne]
    rw [hbeq, Bool.false_or, List.any_eq_true] at hall
    rcases hall with ⟨j, hjmem, hjB⟩
    have hji : j < i + 1 := List.mem_range.mp hjmem
    have hjlen : j < docs.length := Nat.lt_of_lt_of_le hji hlen
    have hjget : docs[j]? = some docs[j] := List.getElem?_eq_getElem hjlen
    have hjgetD : docs.getD j default = docs[j] := by
      rw [List.getD_eq_getElem?_getD, hjget]
      rfl
    rw [hjgetD, beq_iff_eq] at hjB
    -- the Begin row lies inside the inclusive prefix, so the count is ≥ 1.
    have htake : (docs.take (i + 1))[j]? = some docs[j] := by
      rw [List.getElem?_take_of_lt hji]
      exact hjget
    have hmem : docs[j] ∈ docs.take (i + 1) := List.getElem?_mem htake
    have h1le : 1 ≤ entBSum (docs.take (i + 1)) := by
      have hfmem : (if (docs[j]).ent_iob = "B" then 1 else 0) ∈
          (docs.take (i + 1)).map (fun r => if r.ent_iob = "B" then (1 : Nat) else 0) :=
        List.mem_map_of_mem _ hmem
      rw [hjB] at hfmem
      simp only [if_pos rfl] at hfmem
      exact List.single_le_sum (fun x _ => Nat.zero_le x) 1 hfmem
    rw [hNotO hne] at h0
    omega
  · intro i r hr
    rw [entBSum_take_succ docs (i + 1) r hr]
    constructor
    · intro hB
      rw [if_pos hB]
    · intro hB
      rw [if_neg hB, Nat.add_zero]

/-- Witness for C3 at concrete inputs: the sample records are well-formed
IOB; the Outside row has entity index 0 (and only it does among the
checked rows), the Begin row carries the running Begin count, and the
count is unchanged at the non-Begin second record. -/
theorem df_from_docs_ent_idx_spec_witness :
    iobWF sampleRecs = true ∧
      sampleRecs[2]? = some sampleRec2 ∧
      (df_from_docs sampleRecs)[2]? = some sampleRow2 ∧
      sampleRow2.ent_idx = 0 ∧
      sampleRecs[0]? = some sampleRec0 ∧
      (df_from_docs sampleRecs)[0]? = some sampleRow0 ∧
      sampleRow0.ent_idx = entBSum (sampleRecs.take 1) ∧
      sampleRecs[1]? = some sampleRec1 ∧
      entBSum (sampleRecs.take 2) = entBSum (sampleRecs.take 1) := by
  refine ⟨by decide, by decide, by decide, ?_, by decide, by decide, ?_, by decide, ?_⟩
  · exact ((df_from_docs_ent_idx_spec sampleRecs (by decide)).1 2 sampleRec2 sampleRow2
      (by decide) (by decide)).1 (by decide)
  · exact ((df_from_docs_ent_idx_spec sampleRecs (by decide)).1 0 sampleRec0 sampleRow0
      (by decide) (by decide)).2.1 (by decide)
  · exact ((df_from_docs_ent_idx_spec sampleRecs (by decide)).2 0 sampleRec1
      (by decide)).2 (by decide)

/-- C5: for every assembled token-table row whose resolved token is one
of `[`, `]`, `<`, `>`, `/`, `–` (en dash), `%`, the part-of-speech tag in
the final table is the punctuation category, regardless of the tag the
pipeline assigned; rows whose resolved token is not in that set keep the
pipeline's tag. -/
theorem df_from_docs_punct_override (docs : List TokenRec) (i : Nat) (r : TokenRec)
    (trow : Row) (hr : docs[i]? = some r) (ht : (df_from_docs docs)[i]? = some trow) :
    (trow.token ∈ punct_strings → trow.pos = PUNCT) ∧
    (trow.token ∉ punct_strings → trow.pos = r.pos) := by
  rw [df_from_docs_getElem?, hr] at ht
  simp only [Option.map_some'] at ht
  injection ht with ht
  subst ht
  constructor
  · intro hmem
    simp only [mkRow] at hmem ⊢
    rw [fixPos, if_pos hmem]
  · intro hmem
    simp only [mkRow] at hmem ⊢
    rw [fixPos, if_neg hmem]

/-- Witness for C5 at concrete inputs: the row resolving to `"["` has its
tag overwritten to the punctuation category even though the pipeline said
`"X"`; the row resolving to `"Haus"` keeps the pipeline tag. -/
theorem df_from_docs_punct_override_witness :
    sampleRecs[2]? = some sampleRec2 ∧ (df_from_docs sampleRecs)[2]? = some sampleRow2 ∧
      sampleRow2.token ∈ punct_strings ∧ sampleRow2.pos = PUNCT ∧
      sampleRecs[0]? = some sampleRec0 ∧ (df_from_docs sampleRecs)[0]? = some sampleRow0 ∧
      sampleRow0.token ∉ punct_strings ∧ sampleRow0.pos = sampleRec0.pos := by
  refine ⟨by decide, by decide, by decide, ?_, by decide, by decide, by decide, ?_⟩
  · exact (df_from_docs_punct_override sampleRecs 2 sampleRec2 sampleRow2
      (by decide) (by decide)).1 (by decide)
  · exact (df_from_docs_punct_override sampleRecs 0 sampleRec0 sampleRow0
      (by decide) (by decide)).2 (by decide)

/-! ### Characterization of the noun-phrase map and the accumulation loop -/

/-- Writing a chunk into the map does not touch positions outside it. -/
theorem npAssign_not_mem (m : Nat → Option Nat) (ci : Nat) (chunk : List Nat) (t : Nat)
    (h : t ∉ chunk) : npAssign m ci chunk t = m t := by
  induction chunk generalizing m with
  | nil => rfl
  | cons a as ih =>
    have hta : t ≠ a := fun e => h (e ▸ List.mem_cons_self a as)
    have has : t ∉ as := fun hm => h (List.mem_cons_of_mem a hm)
    simp only [npAssign, List.foldl_cons]
    rw [show (as.foldl (fun m ti => Function.update m ti (some ci))
        (Function.update m a (some ci))) = npAssign (Function.update m a (some ci)) ci as from rfl]
    rw [ih _ has]
    exact Function.update_noteq hta _ m

/-- Writing a chunk into the map maps each of its positions to the
chunk's id. -/
theorem npAssign_mem (m : Nat → Option Nat) (ci : Nat) (chunk : List Nat) (t : Nat)
    (h : t ∈ chunk) : npAssign m ci chunk t = some ci := by
  induction chunk generalizing m with
  | nil => cases h
  | cons a as ih =>
    simp only [npAssign, List.foldl_cons]
    rw [show (as.foldl (fun m ti => Function.update m ti (some ci))
        (Function.update m a (some ci))) = npAssign (Function.update m a (some ci)) ci as from rfl]
    by_cases has : t ∈ as
    · exact ih _ has
    · have hta : t = a := by
        rcases List.mem_cons.mp h with h1 | h2
        · exact h1
        · exact absurd h2 has
      rw [npAssign_not_mem _ _ _ _ has, hta]
      exact Function.update_same a (some ci) m

/-- The chunk walk advances the shared counter by the number of chunks. -/
theorem npFold_counter (cs : List (List Nat)) (m : Nat → Option Nat) (c : Nat) :
    (cs.foldl npStep (m, c)).2 = c + cs.length := by
  induction cs generalizing m c with
  | nil => rfl
  | cons ch rest ih =>
    simp only [List.foldl_cons, npStep, ih]
    simp only [List.length_cons]
    omega

/-- The chunk walk leaves positions outside every chunk untouched. -/
theorem npFold_not_mem (cs : List (List Nat)) (m : Nat → Option Nat) (c : Nat) (t : Nat)
    (h : ∀ ch ∈ cs, t ∉ ch) : (cs.foldl npStep (m, c)).1 t = m t := by
  induction cs generalizing m c with
  | nil => rfl
  | cons ch rest ih =>
    simp only [List.foldl_cons, npStep]
    rw [ih _ _ (fun ch2 h2 => h ch2 (List.mem_cons_of_mem ch h2))]
    exact npAssign_not_mem m (c + 1) ch t (h ch (List.mem_cons_self ch rest))

/-- With pairwise-disjoint chunks, the chunk walk maps a position inside
chunk `j` (0-based in emission order) to id `c + j + 1`, `c` being the
counter value on entry. -/
theorem npFold_lookup (cs : List (List Nat)) (m : Nat → Option Nat) (c : Nat) (j : Nat)
    (ch : List Nat) (t : Nat) (hj : cs[j]? = some ch) (ht : t ∈ ch)
    (hdisj : ∀ (j2 : Nat) (c2 : List Nat), cs[j2]? = some c2 → j2 ≠ j → t ∉ c2) :
    (cs.foldl npStep (m, c)).1 t = some (c + j + 1) := by
  induction cs generalizing m c j with
  | nil => simp at hj
  | cons ch0 rest ih =>
    cases j with
    | zero =>
      simp only [List.getElem?_cons_zero] at hj
      injection hj with hj
      subst hj
      simp only [List.foldl_cons, npStep]
      have hrest : ∀ ch2 ∈ rest, t ∉ ch2 := by
        intro ch2 hch2
        rcases List.mem_iff_getElem?.mp hch2 with ⟨n, hn⟩
        refine hdisj (n + 1) ch2 ?_ (by omega)
        simpa using hn
      rw [npFold_not_mem rest _ _ t hrest, npAssign_mem m (c + 1) ch0 t ht]
    | succ j =>
      simp only [List.getElem?_cons_succ] at hj
      simp only [List.foldl_cons, npStep]
      have hd : ∀ (j2 : Nat) (c2 : List Nat), rest[j2]? = some c2 → j2 ≠ j → t ∉ c2 := by
        intro j2 c2 h2 hne
        refine hdisj (j2 + 1) c2 (by simpa using h2) (by omega)
      rw [ih _ _ j hj hd]
      have : c + 1 + j + 1 = c + (j + 1) + 1 := by omega
      rw [this]

/-- `nounPhraseMap` advances the counter by the number of chunks. -/
theorem nounPhraseMap_counter (chunks : List (List Nat)) (c0 : Nat) :
    (nounPhraseMap chunks c0).2 = c0 + chunks.length :=
  npFold_counter chunks _ c0

/-- `nounPhraseMap` maps positions outside every chunk to nothing. -/
theorem nounPhraseMap_not_mem (chunks : List (List Nat)) (c0 : Nat) (t : Nat)
    (h : ∀ ch ∈ chunks, t ∉ ch) : (nounPhraseMap chunks c0).1 t = none :=
  npFold_not_mem chunks _ c0 t h

/-- With pairwise-disjoint chunks, `nounPhraseMap` maps a position inside
chunk `j` to id `c0 + j + 1`. -/
theorem nounPhraseMap_mem (chunks : List (List Nat)) (c0 : Nat) (j : Nat) (ch : List Nat)
    (t : Nat) (hj : chunks[j]? = some ch) (ht : t ∈ ch)
    (hdisj : ∀ (j2 : Nat) (c2 : List Nat), chunks[j2]? = some c2 → j2 ≠ j → t ∉ c2) :
    (nounPhraseMap chunks c0).1 t = some (c0 + j + 1) :=
  npFold_lookup chunks _ c0 j ch t hj ht hdisj

/-- One document contributes as many records as the pipeline emits
tokens. -/
theorem docAttrs_length (nlp : String → SpacyDoc) (r : DocRecord) (c : Nat) :
    (docAttrs nlp r c).length = (nlp (docText r)).tokens.length := by
  simp [docAttrs, tokenAttrs]

/-- Record `i` of one document's contribution is token `i` dressed with
the document key and the noun-phrase lookup. -/
theorem docAttrs_getElem? (nlp : String → SpacyDoc) (r : DocRecord) (c : Nat) (i : Nat) :
    (docAttrs nlp r c)[i]? = ((nlp (docText r)).tokens[i]?).map (fun t =>
      { hash := r.key, text := t.text, lemma_ := t.lemma_, iwnlp := t.iwnlp_lemmas,
        pos := t.pos_, tok_idx := t.i,
        sent_start := if t.is_sent_start || t.i == 0 then 1 else 0,
        ent_iob := t.ent_iob_, ent_type := t.ent_type_,
        noun_phrase := ((nounPhraseMap (nlp (docText r)).noun_chunks c).1 t.i).getD 0 }) := by
  simp [docAttrs, tokenAttrs, List.getElem?_map]

/-- The accumulation loop of `process_docs` equals the structural
flattening `collectFrom`, for any starting accumulator and counter. -/
theorem collect_foldl_eq (nlp : String → SpacyDoc) (rows : List DocRecord)
    (acc : List TokenRec) (c : Nat) :
    (rows.foldl (processDocRec nlp) (acc, c)).1 = acc ++ collectFrom nlp rows c := by
  induction rows generalizing acc c with
  | nil => simp [collectFrom]
  | cons r rest ih =>
    simp only [List.foldl_cons, collectFrom]
    have hstep : processDocRec nlp (acc, c) r =
        (acc ++ docAttrs nlp r c, c + (nlp (docText r)).noun_chunks.length) := by
      simp only [processDocRec, docAttrs]
      rw [nounPhraseMap_counter]
    rw [hstep, ih, List.append_assoc]

/-- `collectDocs` is the structural flattening started at counter 0. -/
theorem collectDocs_eq (nlp : String → SpacyDoc) (rows : List DocRecord) :
    collectDocs nlp rows = collectFrom nlp rows 0 := by
  simpa [collectDocs] using collect_foldl_eq nlp rows [] 0

/-- `chunksBefore` advances by the chunk count of the document at `k`. -/
theorem chunksBefore_succ (nlp : String → SpacyDoc) (rows : List DocRecord) (k : Nat)
    (r : DocRecord) (hk : rows[k]? = some r) :
    chunksBefore nlp rows (k + 1) =
      chunksBefore nlp rows k + (nlp (docText r)).noun_chunks.length := by
  simp [chunksBefore, List.take_succ, hk]

/-- `chunksBefore` is monotone in the document position. -/
theorem chunksBefore_mono (nlp : String → SpacyDoc) (rows : List DocRecord) {a b : Nat}
    (hab : a ≤ b) : chunksBefore nlp rows a ≤ chunksBefore nlp rows b :=
  sumMapTake_mono _ rows hab

/-- Position `tokensBefore k + i` of the flattened batch is record `i` of
document `k`'s contribution, which sees counter `c + chunksBefore k`. -/
theorem collectFrom_getElem? (nlp : String → SpacyDoc) (rows : List DocRecord) (c k : Nat)
    (r : DocRecord) (hk : rows[k]? = some r) (i : Nat)
    (hi : i < (nlp (docText r)).tokens.length) :
    (collectFrom nlp rows c)[tokensBefore nlp rows k + i]? =
      (docAttrs nlp r (c + chunksBefore nlp rows k))[i]? := by
  induction rows generalizing c k with
  | nil => simp at hk
  | cons r0 rest ih =>
    cases k with
    | zero =>
      simp only [List.getElem?_cons_zero] at hk
      injection hk with hk
      subst hk
      simp only [tokensBefore, chunksBefore, List.take_zero, List.map_nil, List.sum_nil,
        Nat.zero_add, Nat.add_zero]
      simp only [collectFrom]
      rw [List.getElem?_append_left]
      rw [docAttrs_length]
      exact hi
    | succ k =>
      simp only [List.getElem?_cons_succ] at hk
      have hTB : tokensBefore nlp (r0 :: rest) (k + 1) =
          (nlp (docText r0)).tokens.length + tokensBefore nlp rest k := by
        simp [tokensBefore, List.take_succ_cons]
      have hCB : chunksBefore nlp (r0 :: rest) (k + 1) =
          (nlp (docText r0)).noun_chunks.length + chunksBefore nlp rest k := by
        simp [chunksBefore, List.take_succ_cons]
      simp only [collectFrom]
      rw [hTB, hCB]
      have hlen : (docAttrs nlp r0 c).length = (nlp (docText r0)).tokens.length :=
        docAttrs_length nlp r0 c
      rw [List.getElem?_append_right (by omega)]
      have harith : (nlp (docText r0)).tokens.length + tokensBefore nlp rest k + i -
          (docAttrs nlp r0 c).length = tokensBefore nlp rest k + i := by omega
      rw [harith, ih _ k hk]
      have : c + ((nlp (docText r0)).noun_chunks.length + chunksBefore nlp rest k) =
          c + (nlp (docText r0)).noun_chunks.length + chunksBefore nlp rest k := by omega
      rw [this]

/-- C6: for every document and every token emitted for it, the token
record's sentence-start flag is 1 if and only if the pipeline marked the
token as a sentence start or the token is the very first token of the
document (token index 0), and 0 otherwise. -/
theorem process_docs_sent_start_flag (nlp : String → SpacyDoc) (rows : List DocRecord)
    (k : Nat) (r : DocRecord) (hk : rows[k]? = some r) (i : Nat) (t : SpacyToken)
    (ht : (nlp (docText r)).tokens[i]? = some t) (rec : TokenRec)
    (hrec : (collectDocs nlp rows)[tokensBefore nlp rows k + i]? = some rec) :
    (rec.sent_start = 1 ↔ (t.is_sent_start = true ∨ t.i = 0)) ∧
    (rec.sent_start = 0 ↔ ¬(t.is_sent_start = true ∨ t.i = 0)) := by
  have hi : i < (nlp (docText r)).tokens.length := (List.getElem?_eq_some.mp ht).1
  rw [collectDocs_eq, collectFrom_getElem? nlp rows 0 k r hk i hi, docAttrs_getElem?, ht] at hrec
  simp only [Option.map_some'] at hrec
  injection hrec with hrec
  subst hrec
  have hcond : (t.is_sent_start || t.i == 0) = true ↔ (t.is_sent_start = true ∨ t.i = 0) := by
    simp
  by_cases hc : (t.is_sent_start || t.i == 0) = true
  · simp [hc, hcond.mp hc]
  · have hcf : (t.is_sent_start || t.i == 0) = false := by
      simpa using hc
    have hnot : ¬(t.is_sent_start = true ∨ t.i = 0) := fun h => hc (hcond.mpr h)
    simp [hcf, hnot]

/-- Witness for C6 at concrete inputs: the first token of the sample
document gets flag 1 (it has index 0 although the pipeline did not mark
it), the second token gets flag 0, and the fourth gets flag 1 (marked by
the pipeline). -/
theorem process_docs_sent_start_flag_witness :
    sampleDocRows[0]? = some sampleDocRec ∧
      (sampleNlp (docText sampleDocRec)).tokens[0]? = some sampleTok0 ∧
      (collectDocs sampleNlp sampleDocRows)[tokensBefore sampleNlp sampleDocRows 0 + 0]? =
        some (collectDocs sampleNlp sampleDocRows).head! ∧
      ((collectDocs sampleNlp sampleDocRows).head!.sent_start = 1 ↔
        (sampleTok0.is_sent_start = true ∨ sampleTok0.i = 0)) := by
  refine ⟨by decide, by decide, by decide, ?_⟩
  exact (process_docs_sent_start_flag sampleNlp sampleDocRows 0 sampleDocRec (by decide)
    0 sampleTok0 (by decide) (collectDocs sampleNlp sampleDocRows).head! (by decide)).1

/-- C4: for every processed batch with pairwise-disjoint noun chunks (the
shape the pipeline emits), the noun-phrase group id is 0 for every token
outside any noun-phrase chunk; all tokens within the same chunk share the
same nonzero id `chunksBefore k + j + 1` (chunk `j` of document `k`);
and distinct chunks across the whole batch receive distinct ids, assigned
by the single counter in emission order, never reset between documents. -/
theorem process_docs_noun_phrase_ids (nlp : String → SpacyDoc) (rows : List DocRecord)
    (hdisj : batchChunksDisjoint nlp rows = true) :
    (∀ (k : Nat) (r : DocRecord), rows[k]? = some r →
        ∀ (i : Nat) (t : SpacyToken), (nlp (docText r)).tokens[i]? = some t →
          ((∀ ch ∈ (nlp (docText r)).noun_chunks, t.i ∉ ch) →
              ((collectDocs nlp rows)[tokensBefore nlp rows k + i]?).map TokenRec.noun_phrase =
                some 0) ∧
          (∀ (j : Nat) (ch : List Nat), (nlp (docText r)).noun_chunks[j]? = some ch →
              t.i ∈ ch →
              ((collectDocs nlp rows)[tokensBefore nlp rows k + i]?).map TokenRec.noun_phrase =
                  some (chunksBefore nlp rows k + j + 1) ∧
                chunksBefore nlp rows k + j + 1 ≠ 0)) ∧
    (∀ (k k' j j' : Nat) (r r' : DocRecord), rows[k]? = some r → rows[k']? = some r' →
        j < (nlp (docText r)).noun_chunks.length →
        j' < (nlp (docText r')).noun_chunks.length →
        chunksBefore nlp rows k + j + 1 = chunksBefore nlp rows k' + j' + 1 →
        k = k' ∧ j = j') := by
  constructor
  · intro k r hk i t ht
    have hi : i < (nlp (docText r)).tokens.length := (List.getElem?_eq_some.mp ht).1
    have hflat : (collectDocs nlp rows)[tokensBefore nlp rows k + i]? =
        (docAttrs nlp r (chunksBefore nlp rows k))[i]? := by
      rw [collectDocs_eq]
      have h := collectFrom_getElem? nlp rows 0 k r hk i hi
      rwa [Nat.zero_add] at h
    rw [hflat, docAttrs_getElem?, ht]
    simp only [Option.map_some']
    constructor
    · intro hout
      rw [nounPhraseMap_not_mem _ _ _ hout]
      rfl
    · intro j ch hj htin
      have hklen : k < rows.length := (List.getElem?_eq_some.mp hk).1
      have hdoc : chunksDisjointB (nlp (docText r)).noun_chunks = true := by
        have h := List.all_eq_true.mp hdisj k (List.mem_range.mpr hklen)
        have hgetD : rows.getD k default = r := by
          rw [List.getD_eq_getElem?_getD, hk]
          rfl
        rwa [hgetD] at h
      have hjlen : j < (nlp (docText r)).noun_chunks.length := (List.getElem?_eq_some.mp hj).1
      have hd : ∀ (j2 : Nat) (c2 : List Nat),
          (nlp (docText r)).noun_chunks[j2]? = some c2 → j2 ≠ j → t.i ∉ c2 := by
        intro j2 c2 h2 hne hmem2
        have hj2len : j2 < (nlp (docText r)).noun_chunks.length := (List.getElem?_eq_some.mp h2).1
        have h1 := List.all_eq_true.mp hdoc j (List.mem_range.mpr hjlen)
        have h2' := List.all_eq_true.mp h1 j2 (List.mem_range.mpr hj2len)
        have hgj : (nlp (docText r)).noun_chunks.getD j [] = ch := by
          rw [List.getD_eq_getElem?_getD, hj]
          rfl
        have hgj2 : (nlp (docText r)).noun_chunks.getD j2 [] = c2 := by
          rw [List.getD_eq_getElem?_getD, h2]
          rfl
        rw [hgj, hgj2] at h2'
        have hbeq : (j == j2) = false := by
          simpa using fun e => hne e.symm
        rw [hbeq, Bool.false_or, List.all_eq_true] at h2'
        have := h2' t.i htin
        simp only [Bool.not_eq_true'] at this
        simp at this
        exact this hmem2
      rw [nounPhraseMap_mem _ _ j ch t.i hj htin hd]
      exact ⟨rfl, by omega⟩
  · intro k k' j j' r r' hk hk' hj hj' heq
    rcases Nat.lt_trichotomy k k' with hlt | heqk | hgt
    · exfalso
      have h1 : chunksBefore nlp rows k + j + 1 ≤ chunksBefore nlp rows (k + 1) := by
        rw [chunksBefore_succ nlp rows k r hk]
        omega
      have h2 : chunksBefore nlp rows (k + 1) ≤ chunksBefore nlp rows k' :=
        chunksBefore_mono nlp rows hlt
      omega
    · refine ⟨heqk, ?_⟩
      subst heqk
      omega
    · exfalso
      have h1 : chunksBefore nlp rows k' + j' + 1 ≤ chunksBefore nlp rows (k' + 1) := by
        rw [chunksBefore_succ nlp rows k' r' hk']
        omega
      have h2 : chunksBefore nlp rows (k' + 1) ≤ chunksBefore nlp rows k :=
        chunksBefore_mono nlp rows hgt
      omega

/-- Witness for C4 at concrete inputs: in the sample batch, the token
outside any chunk gets id 0; the token inside the first chunk gets the
nonzero id `chunksBefore 0 + 0 + 1`; and equal ids force equal chunk
coordinates. -/
theorem process_docs_noun_phrase_ids_witness :
    batchChunksDisjoint sampleNlp sampleDocRows = true ∧
      sampleDocRows[0]? = some sampleDocRec ∧
      (sampleNlp (docText sampleDocRec)).tokens[2]? = some sampleTok2 ∧
      ((collectDocs sampleNlp sampleDocRows)[tokensBefore sampleNlp sampleDocRows 0 + 2]?).map
          TokenRec.noun_phrase = some 0 ∧
      (sampleNlp (docText sampleDocRec)).tokens[0]? = some sampleTok0 ∧
      (sampleNlp (docText sampleDocRec)).noun_chunks[0]? = some [0, 1] ∧
      ((collectDocs sampleNlp sampleDocRows)[tokensBefore sampleNlp sampleDocRows 0 + 0]?).map
          TokenRec.noun_phrase = some (chunksBefore sampleNlp sampleDocRows 0 + 0 + 1) ∧
      chunksBefore sampleNlp sampleDocRows 0 + 0 + 1 ≠ 0 := by
  refine ⟨by decide, by decide, by decide, ?_, by decide, by decide, ?_, ?_⟩
  · exact ((process_docs_noun_phrase_ids sampleNlp sampleDocRows (by decide)).1 0 sampleDocRec
      (by decide) 2 sampleTok2 (by decide)).1 (by decide)
  · exact (((process_docs_noun_phrase_ids sampleNlp sampleDocRows (by decide)).1 0 sampleDocRec
      (by decide) 0 sampleTok0 (by decide)).2 0 [0, 1] (by decide) (by decide)).1
  · exact (((process_docs_noun_phrase_ids sampleNlp sampleDocRows (by decide)).1 0 sampleDocRec
      (by decide) 0 sampleTok0 (by decide)).2 0 [0, 1] (by decide) (by decide)).2

/-! ### The document loader -/

/-- Taking a clamped prefix is taking the unclamped prefix. -/
theorem take_min_length {α : Type} (l : List α) (b : Nat) :
    l.take (min b l.length) = l.take b := by
  rcases Nat.le_total b l.length with hb | hb
  · rw [Nat.min_eq_left hb]
  · rw [Nat.min_eq_right hb, List.take_length, List.take_of_length_le hb]

/-- `Except.ok` feeds its value to the continuation of a bind. -/
theorem exceptBind_ok {ε α β : Type} (a : α) (g : α → Except ε β) :
    (Except.ok a >>= g) = g a := rfl

/-- `Except.error` short-circuits a bind. -/
theorem exceptBind_error {ε α β : Type} (e : ε) (g : α → Except ε β) :
    ((Except.error e : Except ε α) >>= g) = Except.error e := rfl

/-- For natural bounds, Python slicing is take-then-drop. -/
theorem pySlice_natCast {α : Type} (l : List α) (a b : Nat) :
    pySlice l (a : Int) (some (b : Int)) = (l.take b).drop a := by
  have ha : ¬((a : Int) < 0) := by omega
  have hb : ¬((b : Int) < 0) := by omega
  simp only [pySlice, pySliceBound, if_neg ha, if_neg hb, Int.toNat_natCast]
  rw [take_min_length]
  rcases Nat.le_total a l.length with hal | hal
  · rw [Nat.min_eq_left hal]
  · rw [Nat.min_eq_right hal]
    have h1 : (l.take b).length ≤ l.length := by
      rw [List.length_take]
      omega
    rw [List.drop_eq_nil_of_le h1, List.drop_eq_nil_of_le (Nat.le_trans h1 hal)]

/-- The default slice `l[0:None]` is the whole list. -/
theorem pySlice_zero_none {α : Type} (l : List α) : pySlice l 0 none = l := by
  unfold pySlice pySliceBound
  simp

/-- Projection of a dataframe to the three document columns, given the
positions at which they occur. -/
theorem dfSelect_doc_cols (source : DF) (pT pD pX : Nat)
    (hT : source.cols.findIdx? (fun c => c == TITLE) = some pT)
    (hD : source.cols.findIdx? (fun c => c == DESCRIPTION) = some pD)
    (hX : source.cols.findIdx? (fun c => c == TEXT) = some pX) :
    dfSelect source [TITLE, DESCRIPTION, TEXT] = Except.ok
      { cols := [TITLE, DESCRIPTION, TEXT],
        index := source.index,
        rows := source.rows.map (fun row =>
          [row.getD pT (Value.s ""), row.getD pD (Value.s ""), row.getD pX (Value.s "")]) } := by
  unfold dfSelect
  have hm : ([TITLE, DESCRIPTION, TEXT].mapM fun c =>
      source.cols.findIdx? (fun c2 => c2 == c)) = some [pT, pD, pX] := by
    simp [List.mapM, List.mapM.loop, hT, hD, hX]
  rw [hm]
  simp

/-- C7 (amended): for every source table containing the three document
columns and every natural offset range, the document loader on a
non-dewiki path returns exactly the document records in the half-open
row-offset range `[start, stop)` of the column-projected table, with
title/description/body preserved; in particular the returned row count is
`min stop n - start` for an `n`-row source (5 for `n = 20`, `start = 5`,
`stop = 10`).  On a dewiki path the slice is additionally filtered by the
allow-list (see the counterexample). -/
theorem read_slice_range (f : String) (source : DF) (goodIds : List Value)
    (start stop : Nat) (pT pD pX : Nat)
    (hf : hasSubstring f "dewiki" = false)
    (hT : source.cols.findIdx? (fun c => c == TITLE) = some pT)
    (hD : source.cols.findIdx? (fun c => c == DESCRIPTION) = some pD)
    (hX : source.cols.findIdx? (fun c => c == TEXT) = some pX) :
    read f source goodIds (start : Int) (some (stop : Int)) = Except.ok
      { cols := [TITLE, DESCRIPTION, TEXT],
        index := (source.index.take stop).drop start,
        rows := ((source.rows.map (fun row =>
          [row.getD pT (Value.s ""), row.getD pD (Value.s ""), row.getD pX (Value.s "")])).take
            stop).drop start } ∧
    (((source.rows.map (fun row =>
        [row.getD pT (Value.s ""), row.getD pD (Value.s ""), row.getD pX (Value.s "")])).take
          stop).drop start).length = min stop source.rows.length - start := by
  constructor
  · unfold read
    rw [dfSelect_doc_cols source pT pD pX hT hD hX, exceptBind_ok, hf]
    simp [dfIloc, pySlice_natCast]
  · simp [List.length_drop, List.length_take, List.length_map]

/-- Witness for C7 (amended) at concrete inputs: slicing the 20-document
sample source with `start = 5`, `stop = 10` over a non-dewiki path
returns exactly the 5 records at offsets 5..9. -/
theorem read_slice_range_witness :
    hasSubstring "corpus.pickle" "dewiki" = false ∧
      sample20.cols.findIdx? (fun c => c == TITLE) = some 0 ∧
      sample20.cols.findIdx? (fun c => c == DESCRIPTION) = some 1 ∧
      sample20.cols.findIdx? (fun c => c == TEXT) = some 2 ∧
      read "corpus.pickle" sample20 [] (5 : Int) (some (10 : Int)) = Except.ok
        { cols := [TITLE, DESCRIPTION, TEXT],
          index := (sample20.index.take 10).drop 5,
          rows := ((sample20.rows.map (fun row =>
            [row.getD 0 (Value.s ""), row.getD 1 (Value.s ""),
             row.getD 2 (Value.s "")])).take 10).drop 5 } ∧
      (((sample20.rows.map (fun row =>
          [row.getD 0 (Value.s ""), row.getD 1 (Value.s ""),
           row.getD 2 (Value.s "")])).take 10).drop 5).length = 5 := by
  refine ⟨by decide, by decide, by decide, by decide, ?_, ?_⟩
  · exact (read_slice_range "corpus.pickle" sample20 [] 5 10 0 1 2
      (by decide) (by decide) (by decide) (by decide)).1
  · have h := (read_slice_range "corpus.pickle" sample20 [] 5 10 0 1 2
      (by decide) (by decide) (by decide) (by decide)).2
    rwa [show min 10 sample20.rows.length - 5 = 5 by decide] at h

/-- Counterexample for C7 as stated: on a source path containing
`dewiki`, the loader further filters the slice by the allow-list, so a
20-document source sliced with `start = 5`, `stop = 10` returns only 4
documents when the allow-list omits document 7 — not the 5 records of the
offset range. -/
theorem read_slice_dewiki_counterexample :
    (read "dewiki_etl.pickle" sample20 goodIdsNo7 (5 : Int) (some (10 : Int))).map
        (fun d => d.rows.length) = Except.ok 4 ∧
      (read "dewiki_etl.pickle" sample20 goodIdsNo7 (5 : Int) (some (10 : Int))).map
        (fun d => d.rows.length) ≠ Except.ok 5 := by
  have h : (read "dewiki_etl.pickle" sample20 goodIdsNo7 (5 : Int) (some (10 : Int))).map
      (fun d => d.rows.length) = Except.ok 4 := by rfl
  refine ⟨h, ?_⟩
  rw [h]
  intro he
  injection he with he
  exact absurd he (by decide)

/-! ### The orchestrator's store step -/

/-- C8 (amended): for every store-enabled run whose load and unpack
succeed, the output is written to `<NLP_DIR>/<corpus><suffix>.pickle`
where the suffix is `_nlp` when `start = 0` and `stop` is unset or 0
(both falsy in `start or stop`); `_<start>_<stop-1>_nlp` when `stop` is
set to `s` and `start` or `s` is nonzero; and when `start` is nonzero
with `stop` unset, the run fails on `stop - 1` and writes nothing. -/
theorem read_process_store_suffix (nlp : String → SpacyDoc) (source : DF)
    (goodIds : List Value) (f corpus : String) (vocabFlag : Bool) (start : Int)
    (stop? : Option Int) (d : DF) (recs : List DocRecord)
    (hread : read f source goodIds start stop? = Except.ok d)
    (hrecs : toDocRecords d = Except.ok recs) :
    (start = 0 ∧ (stop? = none ∨ stop? = some 0) →
        read_process_store nlp source goodIds f corpus true vocabFlag start stop? =
          Except.ok (some (NLP_DIR ++ "/" ++ corpus ++ "_nlp" ++ ".pickle",
            tokenTableToDF (process_docs nlp recs)))) ∧
    (∀ s : Int, stop? = some s → (start ≠ 0 ∨ s ≠ 0) →
        read_process_store nlp source goodIds f corpus true vocabFlag start stop? =
          Except.ok (some (NLP_DIR ++ "/" ++ corpus ++
            ("_" ++ toString start ++ "_" ++ toString (s - 1) ++ "_nlp") ++ ".pickle",
            tokenTableToDF (process_docs nlp recs)))) ∧
    (start ≠ 0 ∧ stop? = none →
        read_process_store nlp source goodIds f corpus true vocabFlag start stop? =
          Except.error "TypeError: unsupported operand type(s) for -: 'NoneType' and 'int'") := by
  have hbase : read_process_store nlp source goodIds f corpus true vocabFlag start stop? =
      (mkSuffix start stop? >>= fun suffix =>
        Except.ok (some (store corpus (tokenTableToDF (process_docs nlp recs)) suffix))) := by
    unfold read_process_store
    rw [hread, exceptBind_ok, hrecs, exceptBind_ok]
    rfl
  refine ⟨?_, ?_, ?_⟩
  · rintro ⟨rfl, hstop | hstop⟩ <;> subst hstop <;> rw [hbase] <;>
      simp [mkSuffix, pyTruthyInt, pyTruthyOptInt, exceptBind_ok, store]
  · intro s hstop hne
    subst hstop
    rw [hbase]
    have hcond : (pyTruthyInt start || pyTruthyOptInt (some s)) = true := by
      simp only [pyTruthyInt, pyTruthyOptInt, Bool.or_eq_true, bne_iff_ne]
      exact hne
    simp [mkSuffix, hcond, intSub1, store, exceptBind_ok]
  · rintro ⟨hne, rfl⟩
    rw [hbase]
    have hcond : (pyTruthyInt start || pyTruthyOptInt none) = true := by
      simp only [pyTruthyInt, pyTruthyOptInt, Bool.or_eq_true, bne_iff_ne]
      exact Or.inl hne
    simp [mkSuffix, hcond, intSub1, exceptBind_error]

/-- Witness for C8 (amended) at concrete inputs: a store-enabled sliced
run with `start = 5`, `stop = 10` writes to the path with suffix
`_5_9_nlp`. -/
theorem read_process_store_suffix_witness :
    read "corpus.pickle" sample20 [] (5 : Int) (some (10 : Int)) = Except.ok sample20Slice ∧
      toDocRecords sample20Slice = Except.ok sample20SliceRecs ∧
      read_process_store sampleNlp sample20 [] "corpus.pickle" "corpus" true false
          (5 : Int) (some (10 : Int)) =
        Except.ok (some (NLP_DIR ++ "/" ++ "corpus" ++
          ("_" ++ toString (5 : Int) ++ "_" ++ toString ((10 : Int) - 1) ++ "_nlp") ++ ".pickle",
          tokenTableToDF (process_docs sampleNlp sample20SliceRecs))) ∧
      NLP_DIR ++ "/" ++ "corpus" ++
          ("_" ++ toString (5 : Int) ++ "_" ++ toString ((10 : Int) - 1) ++ "_nlp") ++ ".pickle" =
        "nlp_dir/corpus_5_9_nlp.pickle" := by
  refine ⟨by rfl, by rfl, ?_, by rfl⟩
  exact (read_process_store_suffix sampleNlp sample20 [] "corpus.pickle" "corpus" false
    (5 : Int) (some (10 : Int)) sample20Slice sample20SliceRecs (by rfl) (by rfl)).2.1
    (10 : Int) rfl (Or.inl (by decide))

/-- Counterexample for C8 as stated: a store-enabled run with `start = 5`
and `stop` unset is a sliced run per the claim, but the code evaluates
`stop - 1` on `None`, raises, and writes no file at all. -/
theorem read_process_store_missing_stop_counterexample :
    read_process_store sampleNlp sample20 [] "corpus.pickle" "corpus" true false
        (5 : Int) none =
      Except.error "TypeError: unsupported operand type(s) for -: 'NoneType' and 'int'" := by
  rfl

/-- C10: for every call to `read_process_store` with storing enabled,
`start > 0` and `stop` left unset, the suffix computation evaluates
`stop - 1` on an absent stop value and the run fails with an error
instead of writing the table; no output is produced for such a run. -/
theorem read_process_store_none_stop_error (nlp : String → SpacyDoc) (source : DF)
    (goodIds : List Value) (f corpus : String) (vocabFlag : Bool) (start : Int)
    (h : 0 < start) :
    mkSuffix start none =
      Except.error "TypeError: unsupported operand type(s) for -: 'NoneType' and 'int'" ∧
    ∀ (p : Option (String × DF)),
      read_process_store nlp source goodIds f corpus true vocabFlag start none ≠
        Except.ok p := by
  have hcond : (pyTruthyInt start || pyTruthyOptInt none) = true := by
    simp only [pyTruthyInt, pyTruthyOptInt, Bool.or_eq_true, bne_iff_ne]
    exact Or.inl (by omega)
  have hmk : mkSuffix start none =
      Except.error "TypeError: unsupported operand type(s) for -: 'NoneType' and 'int'" := by
    simp [mkSuffix, hcond, intSub1, exceptBind_error]
  refine ⟨hmk, ?_⟩
  intro p hok
  unfold read_process_store at hok
  cases hread : read f source goodIds start none with
  | error e =>
    rw [hread, exceptBind_error] at hok
    exact Except.noConfusion hok
  | ok d =>
    rw [hread, exceptBind_ok] at hok
    cases hrecs : toDocRecords d with
    | error e =>
      rw [hrecs, exceptBind_error] at hok
      exact Except.noConfusion hok
    | ok recs =>
      rw [hrecs, exceptBind_ok] at hok
      simp only [if_true, hmk, exceptBind_error] at hok
      exact Except.noConfusion hok

/-- Witness for C10 at concrete inputs: with `start = 1`, `stop` unset
and storing enabled, the suffix computation raises the `TypeError` and
the run produces no stored table. -/
theorem read_process_store_none_stop_error_witness :
    (0 : Int) < 1 ∧
      mkSuffix (1 : Int) none =
        Except.error "TypeError: unsupported operand type(s) for -: 'NoneType' and 'int'" ∧
      read_process_store sampleNlp sample20 [] "corpus.pickle" "corpus" true false
          (1 : Int) none ≠
        Except.ok none := by
  refine ⟨by decide, ?_, ?_⟩
  · exact (read_process_store_none_stop_error sampleNlp sample20 [] "corpus.pickle" "corpus"
      false (1 : Int) (by decide)).1
  · exact (read_process_store_none_stop_error sampleNlp sample20 [] "corpus.pickle" "corpus"
      false (1 : Int) (by decide)).2 none

/-! ### The store/read round trip -/

/-- Rebuilding each 3-cell row from its first three cells is the
identity. -/
theorem map_getD3_eq (rows : List (List Value))
    (hr : (rows.all fun row => row.length == 3) = true) :
    rows.map (fun row =>
      [row.getD 0 (Value.s ""), row.getD 1 (Value.s ""), row.getD 2 (Value.s "")]) = rows := by
  induction rows with
  | nil => rfl
  | cons r rest ih =>
    simp only [List.all_cons, Bool.and_eq_true] at hr
    obtain ⟨hlen, hrest⟩ := hr
    rw [List.map_cons, ih hrest]
    have h3 : r.length = 3 := by simpa using hlen
    cases r with
    | nil => simp at h3
    | cons a r1 =>
      cases r1 with
      | nil => simp at h3
      | cons b r2 =>
        cases r2 with
        | nil => simp at h3
        | cons c r3 =>
          cases r3 with
          | nil => rfl
          | cons d r4 =>
            simp only [List.length_cons] at h3
            omega

/-- The default slice `df.iloc[0:None]` is the whole dataframe. -/
theorem dfIloc_zero_none (df : DF) : dfIloc df 0 none = df := by
  cases df
  simp [dfIloc, pySlice_zero_none]

/-- C9 (amended): writing a table whose columns are exactly the document
columns (title, description, body text) and reading it back with the
component's `read` over a non-dewiki path and the default full range
yields an identical table.  (A token table cannot be read back: `read`
projects to the document columns, which a token table lacks — see the
counterexample.) -/
theorem store_read_roundtrip_doc_table (corpus suffix : String) (df : DF)
    (goodIds : List Value)
    (hc : df.cols = [TITLE, DESCRIPTION, TEXT])
    (hr : (df.rows.all fun row => row.length == 3) = true)
    (hf : hasSubstring (store corpus df suffix).1 "dewiki" = false) :
    read (store corpus df suffix).1 (store corpus df suffix).2 goodIds 0 none =
      Except.ok df := by
  have hT : df.cols.findIdx? (fun c => c == TITLE) = some 0 := by rw [hc]; rfl
  have hD : df.cols.findIdx? (fun c => c == DESCRIPTION) = some 1 := by rw [hc]; rfl
  have hX : df.cols.findIdx? (fun c => c == TEXT) = some 2 := by rw [hc]; rfl
  have hsel : dfSelect df [TITLE, DESCRIPTION, TEXT] = Except.ok df := by
    rw [dfSelect_doc_cols df 0 1 2 hT hD hX, map_getD3_eq df.rows hr]
    cases df
    simp_all
  unfold read
  rw [show (store corpus df suffix).2 = df from rfl, hsel, exceptBind_ok, hf]
  simp [dfIloc_zero_none]

/-- Witness for C9 (amended) at concrete inputs: a two-document table
with exactly the document columns survives the write-read round trip
unchanged. -/
theorem store_read_roundtrip_doc_table_witness :
    sampleDocDF.cols = [TITLE, DESCRIPTION, TEXT] ∧
      (sampleDocDF.rows.all fun row => row.length == 3) = true ∧
      hasSubstring (store "corpus" sampleDocDF "_nlp").1 "dewiki" = false ∧
      read (store "corpus" sampleDocDF "_nlp").1 (store "corpus" sampleDocDF "_nlp").2
          [] 0 none =
        Except.ok sampleDocDF :=
  ⟨by decide, by decide, by decide,
    store_read_roundtrip_doc_table "corpus" "_nlp" sampleDocDF []
      (by decide) (by decide) (by decide)⟩

/-- Counterexample for C9 as stated: storing an assembled token table and
reading the file back with the component's `read` raises a `KeyError`
(the token table has no title/description columns to project), so the
round trip does not return the stored table. -/
theorem store_read_roundtrip_counterexample :
    read (store "corpus" (tokenTableToDF (df_from_docs sampleRecs)) "_nlp").1
        (store "corpus" (tokenTableToDF (df_from_docs sampleRecs)) "_nlp").2 [] 0 none =
      Except.error "KeyError: requested columns not in dataframe" ∧
    read (store "corpus" (tokenTableToDF (df_from_docs sampleRecs)) "_nlp").1
        (store "corpus" (tokenTableToDF (df_from_docs sampleRecs)) "_nlp").2 [] 0 none ≠
      Except.ok (tokenTableToDF (df_from_docs sampleRecs)) := by
  have h : read (store "corpus" (tokenTableToDF (df_from_docs sampleRecs)) "_nlp").1
      (store "corpus" (tokenTableToDF (df_from_docs sampleRecs)) "_nlp").2 [] 0 none =
      Except.error "KeyError: requested columns not in dataframe" := by rfl
  refine ⟨h, ?_⟩
  rw [h]
  intro he
  exact Except.noConfusion he

end NLProcessor
